import Mathlib

/-!
Verification of the heart-sound classification pipeline
(`src/preprocessing.py`, `src/train.py`, `src/evaluate.py`, `src/validate.py`,
`src/models/conformer_model.py`, `src/models/ast_model.py`).

Waveforms are modelled as lists of rationals (one entry per sample); tensors of
spectrogram values are modelled as nested lists.  The numeric content of an FFT
bin is irrelevant to every claim below, so spectrogram entries are represented
by a symbolic term algebra (`SpecVal`) that records exactly which transform
produced each entry, while all shapes are computed concretely.
-/

/-! ## Configuration (`src/preprocessing.py`, `class Config`) -/

def sampleRate : ℕ := 4000

def targetDuration : ℚ := 20

/-- `target_sample_length = int(target_duration * sample_rate)`. -/
def targetSampleLength : ℕ := (⌊targetDuration * (sampleRate : ℚ)⌋).toNat

def nFft : ℕ := 1024

def hopLength : ℕ := 512

def nMels : ℕ := 128

def classColumns : List String := ["AS", "AR", "MR", "MS", "N"]

/-! ## `load_audio_file` (src/preprocessing.py lines 57-89)

The function loads a `(channels, samples)` tensor, averages multi-channel audio
to mono, resamples when the file's rate differs from the configured rate, pads
with zeros or trims to `target_sample_length`, and peak-normalizes.  The
resampler (`torchaudio.transforms.Resample`) is library code; it is taken here
as an arbitrary function argument, so every theorem below quantifies over all
possible resampler outputs. -/

/-- `torch.mean(waveform, dim=0)` for a `(channels, samples)` tensor. -/
def meanChannels (chans : List (List ℚ)) (n : ℕ) : List ℚ :=
  (List.range n).map (fun i => (chans.map (fun c => c.getD i 0)).sum / (chans.length : ℚ))

/-- Mono conversion: channels are averaged only when there is more than one. -/
def toMono (chans : List (List ℚ)) : List ℚ :=
  match chans with
  | [] => []
  | [c] => c
  | c :: rest => meanChannels (c :: rest) c.length

/-- `torch.max(torch.abs(waveform))` (with initial value `0 ≤ |x|`). -/
def maxAbs (xs : List ℚ) : ℚ := xs.foldl (fun a x => max a |x|) 0

/-- Zero-pad a short waveform or trim a long one to `target_sample_length`. -/
def padOrTrim (w : List ℚ) : List ℚ :=
  if w.length < targetSampleLength then
    w ++ List.replicate (targetSampleLength - w.length) 0
  else if w.length > targetSampleLength then
    w.take targetSampleLength
  else w

/-- `waveform / (torch.max(torch.abs(waveform)) + 1e-8)`. -/
def peakNormalize (w : List ℚ) : List ℚ := w.map (fun x => x / (maxAbs w + 1 / 10 ^ 8))

/-- The whole of `load_audio_file` on a successfully loaded file. -/
def loadAudioFile (resample : List ℚ → List ℚ) (origSampleRate : ℕ)
    (chans : List (List ℚ)) : List ℚ :=
  let mono := toMono chans
  let w := if origSampleRate ≠ sampleRate then resample mono else mono
  peakNormalize (padOrTrim w)

/-! ## `extract_features` (src/preprocessing.py lines 92-120)

`torchaudio.transforms.Spectrogram` with `center=True` (the default) reflects
`n_fft / 2` samples on each side and produces `n // hop_length + 1` frames of
`n_fft / 2 + 1` frequency bins; `MelScale` maps the frequency axis to `n_mels`
bins; `AmplitudeToDB` is elementwise. -/

/-- Reflection padding of `n` samples on each side (`pad_mode="reflect"`). -/
def reflectPad (n : ℕ) (w : List ℚ) : List ℚ :=
  ((w.drop 1).take n).reverse ++ w ++ ((w.reverse.drop 1).take n)

/-- Number of STFT frames produced for an `n`-sample input (`center=True`). -/
def numFrames (n : ℕ) : ℕ := n / hopLength + 1

/-- The windowed sample slices that the STFT is computed over. -/
def stftFrames (w : List ℚ) : List (List ℚ) :=
  let padded := reflectPad (nFft / 2) w
  (List.range (numFrames w.length)).map (fun t => (padded.drop (t * hopLength)).take nFft)

/-- Symbolic spectrogram entries: `pow frame k` is the power-spectrum value of
frequency bin `k` of one STFT frame, `mel col m` is mel-filterbank row `m`
applied to one time column, `db v` is the amplitude-to-dB rescaling. -/
inductive SpecVal where
  | pow (frame : List ℚ) (bin : ℕ)
  | mel (col : List SpecVal) (m : ℕ)
  | db (v : SpecVal)

/-- `T.Spectrogram(...)`: a `(n_fft/2 + 1, frames)` matrix. -/
def spectrogramT (w : List ℚ) : List (List SpecVal) :=
  (List.range (nFft / 2 + 1)).map (fun k => (stftFrames w).map (fun fr => SpecVal.pow fr k))

/-- Time extent of a `(freq, time)` matrix (the length of its first row). -/
def specTimeDim (spec : List (List SpecVal)) : ℕ :=
  (spec.head?.map List.length).getD 0

/-- `T.MelScale(...)`: maps the frequency axis to `n_mels` bins, entry
`(m, t)` depending on time column `t` of the input spectrogram. -/
def melScaleT (spec : List (List SpecVal)) : List (List SpecVal) :=
  (List.range nMels).map (fun m =>
    (List.range (specTimeDim spec)).map (fun t =>
      SpecVal.mel (spec.map (fun row => row.getD t (SpecVal.pow [] 0))) m))

/-- `T.AmplitudeToDB()`: elementwise. -/
def amplitudeToDB (spec : List (List SpecVal)) : List (List SpecVal) :=
  spec.map (fun row => row.map SpecVal.db)

/-- The whole of `extract_features`. -/
def extractFeatures (w : List ℚ) : List (List SpecVal) :=
  amplitudeToDB (melScaleT (spectrogramT w))

/-! ## Python-level failures

Outcomes of running a piece of the pipeline that can raise. -/

inductive PyError where
  | attributeError (attr : String)
  | assertionError
  | runtimeError (what : String)
  | valueError (what : String)
  | fileNotFoundError
  deriving DecidableEq

/-! ## Model architectures (src/models)

Only the tensor-shape semantics of the two forward passes matter to the
claims; the embedding tracks, for a `(B, C, F, T)` input, either the output
shape or the Python exception the source raises. -/

structure AstHyper where
  imgSize : ℕ × ℕ
  patchSize : ℕ × ℕ
  inChannels : ℕ
  numClasses : ℕ
  embedDim : ℕ
  representationSize : Option ℕ

/-- The AST settings used by `src/train.py` and `src/evaluate.py`
(`representation_size` is not passed, so it keeps its default `None`). -/
def astTrainHyper : AstHyper :=
  { imgSize := (128, 1024), patchSize := (16, 16), inChannels := 1,
    numClasses := 5, embedDim := 768, representationSize := none }

/-- `nn.Identity()` exposes no `out_features` attribute. -/
def identityOutFeatures : Option ℕ := none

/-- `nn.Sequential(...)` exposes no `out_features` attribute either. -/
def sequentialOutFeatures : Option ℕ := none

/-- Attribute lookup `self.representation.out_features` in
`AudioSpectrogramTransformer.__init__` (ast_model.py line 232):
`representation` is `nn.Sequential(Linear, Tanh)` when `representation_size`
is truthy and `nn.Identity()` otherwise. -/
def representationOutFeatures (representationSize : Option ℕ) : Option ℕ :=
  match representationSize with
  | some _ => sequentialOutFeatures
  | none => identityOutFeatures

/-- `AudioSpectrogramTransformer.__init__`: building the head reads
`self.representation.out_features`; a `none` lookup raises `AttributeError`. -/
def astConstruct (h : AstHyper) : Except PyError AstHyper :=
  match representationOutFeatures h.representationSize with
  | none => .error (.attributeError ("out_features"))
  | some _ => .ok h

def numPatches (h : AstHyper) : ℕ :=
  (h.imgSize.1 / h.patchSize.1) * (h.imgSize.2 / h.patchSize.2)

/-- Shape semantics of `PatchEmbed.forward` on a `(B, C, F, T)` input
(ast_model.py lines 33-57).  The source binds `B, C, F, T = x.shape`,
shadowing the module alias `F` (`torch.nn.functional`); the pad branch for
inputs smaller than `img_size` therefore evaluates `F.pad` on the integer
frequency extent and raises `AttributeError` instead of padding. -/
def patchEmbedForward (h : AstHyper) (b c f t : ℕ) : Except PyError (ℕ × ℕ × ℕ) :=
  if ¬ (f ≤ h.imgSize.1 ∧ t ≤ h.imgSize.2) then .error .assertionError
  else if f < h.imgSize.1 ∨ t < h.imgSize.2 then .error (.attributeError ("pad"))
  else if c ≠ h.inChannels then .error (.runtimeError ("conv2d channels"))
  else .ok (b, numPatches h, h.embedDim)

/-- `create_model` for the AST followed by `model(inputs)`: construction must
succeed before the forward pass can run, then the class token is taken and
the head yields `(batch, num_classes)` logits. -/
def astCreateAndForward (h : AstHyper) (b c f t : ℕ) : Except PyError (ℕ × ℕ) :=
  match astConstruct h with
  | .error e => .error e
  | .ok _ =>
      match patchEmbedForward h b c f t with
      | .error e => .error e
      | .ok res => .ok (res.1, h.numClasses)

structure ConformerHyper where
  inputDim : ℕ
  hiddenDim : ℕ
  numClasses : ℕ

/-- The Conformer settings used by `src/train.py` / `src/evaluate.py`. -/
def conformerTrainHyper : ConformerHyper :=
  { inputDim := 128, hiddenDim := 256, numClasses := 5 }

/-- Shape semantics of `Conformer.forward` (conformer_model.py lines 242-280):
`x.transpose(2, 3).reshape(b, t, f)` requires the element counts to agree,
the input projection requires `f = input_dim`, and the adaptive average pool
needs a non-empty time axis; the head then yields `(batch, num_classes)`. -/
def conformerForward (h : ConformerHyper) (b c f t : ℕ) : Except PyError (ℕ × ℕ) :=
  if b * c * f * t ≠ b * t * f then .error (.runtimeError ("reshape"))
  else if f ≠ h.inputDim then .error (.runtimeError ("linear in_features"))
  else if t = 0 then .error (.runtimeError ("adaptive_avg_pool1d empty"))
  else .ok (b, h.numClasses)

/-! ## Dataset splitting (src/preprocessing.py lines 224-240)

`sklearn.model_selection.train_test_split` draws a permutation of the row
indices (seeded by `random_state`, optionally shuffled within strata), takes
the first `n_test` shuffled indices as the test side and the rest as the
train side, and applies the same index selection to every array passed in.
The permutation is a parameter here, so the theorems hold for every RNG
outcome and for both the stratified and unstratified branches. -/

/-- One processed `(feature, label, filename)` triple. -/
structure Triple where
  feature : List (List SpecVal)
  label : List ℚ
  filename : String

def selectIdx {α : Type} (xs : List α) (idx : List ℕ) : List α :=
  idx.filterMap (fun i => xs[i]?)

/-- `train_test_split`: `(train side, test side)` for shuffled indices `σ`. -/
def trainTestSplit {α : Type} (xs : List α) (σ : List ℕ) (nTest : ℕ) :
    List α × List α :=
  (selectIdx xs (σ.drop nTest), selectIdx xs (σ.take nTest))

/-- The two chained splits of `process_dataset`: first split off the test
set, then split the remainder into train and validation.  Returns
`(train, val, test)`. -/
def processSplit (triples : List Triple) (σ1 σ2 : List ℕ) (nTest nVal : ℕ) :
    List Triple × List Triple × List Triple :=
  let p1 := trainTestSplit triples σ1 nTest
  let p2 := trainTestSplit p1.1 σ2 nVal
  (p2.1, p2.2, p1.2)

/-! ## `HeartSoundDataset.__getitem__` (src/preprocessing.py lines 311-334)

A stored feature is a `(freq, time)` matrix of rationals (the channel axis
carries a single channel and is omitted).  The two SpecAugment draws — the
mask start and width chosen by `torchaudio` and the two `np.random.random()`
coin flips — are parameters, so the theorems quantify over every RNG
outcome. -/

/-- `T.FrequencyMasking`: rows in `[start, start + width)` are zeroed. -/
def freqMask (start width : ℕ) (m : List (List ℚ)) : List (List ℚ) :=
  ((List.range m.length).zip m).map (fun p =>
    if start ≤ p.1 ∧ p.1 < start + width then p.2.map (fun _ => (0 : ℚ)) else p.2)

/-- `T.TimeMasking`: columns in `[start, start + width)` are zeroed. -/
def timeMask (start width : ℕ) (m : List (List ℚ)) : List (List ℚ) :=
  m.map (fun row =>
    ((List.range row.length).zip row).map (fun p =>
      if start ≤ p.1 ∧ p.1 < start + width then (0 : ℚ) else p.2))

/-- One random mask draw (start position and width). -/
structure MaskDraw where
  start : ℕ
  width : ℕ

/-- The feature returned by `__getitem__`: masks are applied only when the
dataset was built with `augment=True` and a truthy `config`, each with
probability one half, and an optional `transform` is applied afterwards. -/
def getItemFeature (augment hasConfig : Bool)
    (transform : Option (List (List ℚ) → List (List ℚ)))
    (coinFreq coinTime : Bool) (fm tm : MaskDraw)
    (feature : List (List ℚ)) : List (List ℚ) :=
  let masked :=
    if augment && hasConfig then
      let f1 := if coinFreq then freqMask fm.start fm.width feature else feature
      if coinTime then timeMask tm.start tm.width f1 else f1
    else feature
  match transform with
  | some tr => tr masked
  | none => masked

/-- Values stored in a returned sample dict. -/
inductive SampleVal where
  | tensor (m : List (List ℚ))
  | labelVec (l : List ℚ)
  | name (s : String)

/-- The sample dict built by `__getitem__`: keys `feature` and `label`, plus
`filename` when the dataset was constructed with filenames. -/
def getItemSample (augment hasConfig : Bool)
    (transform : Option (List (List ℚ) → List (List ℚ)))
    (coinFreq coinTime : Bool) (fm tm : MaskDraw)
    (feature : List (List ℚ)) (label : List ℚ) (filename : Option String) :
    List (String × SampleVal) :=
  [("feature", SampleVal.tensor
      (getItemFeature augment hasConfig transform coinFreq coinTime fm tm feature)),
   ("label", SampleVal.labelVec label)] ++
  (match filename with
   | some fn => [("filename", SampleVal.name fn)]
   | none => [])

/-! ## Training loop bookkeeping (src/train.py lines 229-278, 318-321)

The state machine tracks `best_val_f1` (initialized to `0`), the
early-stopping patience counter, whether the loop has terminated, and the
validation F1 of the checkpoint currently on disk (`None` before the first
save).  Everything else about an epoch is irrelevant to claim C5, so an
epoch is represented by its validation F1 alone. -/

def earlyStoppingPatience : ℕ := 10

structure TrainState where
  best : ℚ
  patience : ℕ
  disk : Option ℚ
  stopped : Bool
  deriving DecidableEq

def initTrainState : TrainState :=
  { best := 0, patience := 0, disk := none, stopped := false }

/-- One epoch: save the checkpoint and reset patience iff `val_f1 >
best_val_f1`, otherwise bump patience and trigger early stopping at the
patience limit.  The boolean records whether the checkpoint was written. -/
def epochStep (s : TrainState) (valF1 : ℚ) : TrainState × Bool :=
  if s.stopped then (s, false)
  else if s.best < valF1 then
    ({ best := valF1, patience := 0, disk := some valF1, stopped := false }, true)
  else
    ({ s with patience := s.patience + 1,
              stopped := earlyStoppingPatience ≤ s.patience + 1 }, false)

def trainStateAfter (f1s : List ℚ) : TrainState :=
  f1s.foldl (fun s f => (epochStep s f).1) initTrainState

/-- State at the start of epoch `i` (0-based). -/
def stateBefore (f1s : List ℚ) (i : ℕ) : TrainState :=
  trainStateAfter (f1s.take i)

/-- Whether the checkpoint file is written during epoch `i` (only meaningful
for `i < f1s.length`, the epochs that exist). -/
def savedAt (f1s : List ℚ) (i : ℕ) : Bool :=
  (epochStep (stateBefore f1s i) (f1s.getD i 0)).2

/-- The checkpoint loaded for the held-out test evaluation
(`model.load_state_dict(torch.load(model_save_path))`, train.py line 319). -/
def testCheckpoint (f1s : List ℚ) : Option ℚ :=
  (trainStateAfter f1s).disk

/-- The validation F1 written by the chronologically last save, reconstructed
from the per-epoch save flags alone. -/
def lastSavedVal (f1s : List ℚ) : Option ℚ :=
  (List.range f1s.length).foldl
    (fun acc i => if savedAt f1s i then some (f1s.getD i 0) else acc) none

/-! ## Checkpoint round-trip (src/train.py lines 267-272, src/evaluate.py
lines 240-242)

A model is its forward function together with its current parameters;
`state_dict` reads the parameters and `load_state_dict` (strict mode, the
default) replaces them wholesale.  The serialized checkpoint format is
modelled concretely for the classifier head (`nn.Linear`), the layer whose
parameters `torch.save` writes under `output.weight` / `output.bias`. -/

structure TorchModel (P I O : Type) where
  forward : P → I → O
  params : P

def TorchModel.stateDict {P I O : Type} (m : TorchModel P I O) : P := m.params

def TorchModel.loadStateDict {P I O : Type} (m : TorchModel P I O) (sd : P) :
    TorchModel P I O :=
  { m with params := sd }

def TorchModel.run {P I O : Type} (m : TorchModel P I O) (x : I) : O :=
  m.forward m.params x

structure LinearParams where
  weight : List (List ℚ)
  bias : List ℚ
  deriving DecidableEq

def dotQ (r x : List ℚ) : ℚ := ((r.zip x).map (fun p => p.1 * p.2)).sum

/-- `nn.Linear`: `y = W x + b`, one output per (row, bias) pair. -/
def linearForward (p : LinearParams) (x : List ℚ) : List ℚ :=
  (p.weight.zip p.bias).map (fun rb => dotQ rb.1 x + rb.2)

def numColsOf (rows : List (List ℚ)) : ℕ :=
  (rows.head?.map List.length).getD 0

/-- Rebuild a `(rows, cols)` matrix from its flattened data. -/
def unflatten (rows cols : ℕ) (flat : List ℚ) : List (List ℚ) :=
  (List.range rows).map (fun i => (flat.drop (i * cols)).take cols)

/-- `torch.save(model.state_dict(), path)`: named tensors with their shapes
and flattened data. -/
def savedCheckpoint (p : LinearParams) : List (String × (ℕ × ℕ) × List ℚ) :=
  [("output.weight", (p.weight.length, numColsOf p.weight), p.weight.flatten),
   ("output.bias", (p.bias.length, 1), p.bias)]

/-- `torch.load` followed by strict `load_state_dict`: look the named
tensors up and rebuild the parameters. -/
def torchLoadLinear (file : List (String × (ℕ × ℕ) × List ℚ)) :
    Option LinearParams :=
  match file.lookup ("output.weight"), file.lookup ("output.bias") with
  | some wEntry, some bEntry => some ⟨unflatten wEntry.1.1 wEntry.1.2 wEntry.2, bEntry.2⟩
  | _, _ => none

/-! ## Thresholded prediction (src/evaluate.py lines 117-119, src/validate.py
lines 46-50, src/train.py line 109)

`evaluate.py` and `validate.py` compute `probs = torch.sigmoid(outputs)` and
`preds = (probs > 0.5)`; `train.py` computes `preds = (outputs > 0.5)` on the
raw logits, without a sigmoid. -/

noncomputable def sigmoid (z : ℝ) : ℝ := 1 / (1 + Real.exp (-z))

/-- Elementwise `(p > thr)` as a 0/1 indicator. -/
def threshPredAt {α : Type} [LinearOrder α] (thr p : α) : Bool := decide (thr < p)

/-- The per-logit prediction of `evaluate_model` and `validate_model`. -/
noncomputable def evalPredict (logit : ℝ) : Bool :=
  threshPredAt (1 / 2 : ℝ) (sigmoid logit)

/-- The per-logit prediction of `train_epoch` / `validate` in train.py. -/
noncomputable def trainPredict (logit : ℝ) : Bool :=
  threshPredAt (1 / 2 : ℝ) logit

/-! ## The `process_dataset` file loop (src/preprocessing.py lines 180-217)

Each patient row carries a multi-hot label and eight recording references;
each reference either is missing on disk, fails to load
(`load_audio_file` returns `None` after logging), or loads as a
`(channels, samples)` tensor with some original sample rate. -/

inductive FileOutcome where
  | missing
  | loadFailure
  | loaded (chans : List (List ℚ)) (origSr : ℕ)
  deriving DecidableEq

structure RecordingRef where
  filename : String
  outcome : FileOutcome
  deriving DecidableEq

def isLoadedRec (r : RecordingRef) : Bool :=
  match r.outcome with
  | .loaded _ _ => true
  | _ => false

/-- The feature a successfully loaded recording contributes. -/
def loadedFeature (resample : List ℚ → List ℚ) (r : RecordingRef) :
    Option (List (List SpecVal)) :=
  match r.outcome with
  | .loaded chans sr => some (extractFeatures (loadAudioFile resample sr chans))
  | _ => none

structure ProcState where
  features : List (List (List SpecVal))
  labels : List (List ℚ)
  filenames : List String
  processedCount : ℕ
  failedCount : ℕ

def initProcState : ProcState := ⟨[], [], [], 0, 0⟩

/-- Body of the inner loop: missing files are warned about and counted as
failures, load failures are counted as failures, successful loads append a
`(feature, label, filename)` triple and bump the processed count. -/
def processRecording (resample : List ℚ → List ℚ) (label : List ℚ)
    (s : ProcState) (r : RecordingRef) : ProcState :=
  match r.outcome with
  | .missing => { s with failedCount := s.failedCount + 1 }
  | .loadFailure => { s with failedCount := s.failedCount + 1 }
  | .loaded chans sr =>
      { s with
        features := s.features ++ [extractFeatures (loadAudioFile resample sr chans)],
        labels := s.labels ++ [label],
        filenames := s.filenames ++ [r.filename],
        processedCount := s.processedCount + 1 }

def processRow (resample : List ℚ → List ℚ) (s : ProcState)
    (row : List ℚ × List RecordingRef) : ProcState :=
  row.2.foldl (processRecording resample row.1) s

def processAllRows (resample : List ℚ → List ℚ)
    (rows : List (List ℚ × List RecordingRef)) : ProcState :=
  rows.foldl (processRow resample) initProcState

def allRecordings (rows : List (List ℚ × List RecordingRef)) : List RecordingRef :=
  (rows.map Prod.snd).flatten

/-- `np.stack(features)` after the loop: raises `ValueError` on an empty
collection, otherwise passes the state through. -/
def stackFeatures (s : ProcState) : Except PyError ProcState :=
  if s.features.isEmpty then .error (.valueError ("need at least one array to stack"))
  else .ok s

def processDatasetRun (resample : List ℚ → List ℚ)
    (rows : List (List ℚ × List RecordingRef)) : Except PyError ProcState :=
  stackFeatures (processAllRows resample rows)

/-! ## `evaluate.py` `main` (lines 200-272)

The loop walks the two configured architectures in order; a missing
checkpoint file is reported with a warning and skipped via `continue`
(checked before any `torch.load`), a present one is loaded and evaluated.
`compare_models` runs only when more than one result was collected, and the
run then reaches its final log line. -/

inductive ModelName where
  | conformer
  | ast
  deriving DecidableEq

def modelOrder : List ModelName := [ModelName.conformer, ModelName.ast]

/-- `torch.load(checkpoint)`: fails iff the file is absent. -/
def torchLoadCkpt (present : Bool) : Except PyError Unit :=
  if present then .ok () else .error .fileNotFoundError

structure EvalOutcome where
  evaluated : List ModelName
  skippedReported : List ModelName
  compareRan : Bool
  deriving DecidableEq

def evalStep (present : ModelName → Bool)
    (acc : Except PyError (List ModelName × List ModelName)) (m : ModelName) :
    Except PyError (List ModelName × List ModelName) :=
  match acc with
  | .error e => .error e
  | .ok st =>
      if present m then
        match torchLoadCkpt (present m) with
        | .error e => .error e
        | .ok _ => .ok (st.1 ++ [m], st.2)
      else .ok (st.1, st.2 ++ [m])

def evalMain (present : ModelName → Bool) : Except PyError EvalOutcome :=
  match modelOrder.foldl (evalStep present) (.ok ([], [])) with
  | .error e => .error e
  | .ok st =>
      .ok { evaluated := st.1, skippedReported := st.2,
            compareRan := decide (1 < st.1.length) }

/-! ## `validate.py` `validate_model` (lines 33-73)

`main` builds the test `HeartSoundDataset` with `filenames=test_filenames`,
so every sample dict has the three keys `feature`, `label`, `filename`;
`default_collate` returns a dict with the same keys, and iterating a dict
yields its keys, so `inputs, labels = batch` is Python tuple unpacking of
the key list. -/

/-- The key list of a collated batch (`default_collate` keeps the sample
keys). -/
def collateKeys (sample : List (String × SampleVal)) : List String :=
  sample.map Prod.fst

/-- Python `a, b = xs`: succeeds only on exactly two values. -/
def unpackPair {α : Type} (xs : List α) : Except PyError (α × α) :=
  match xs with
  | [a, b] => .ok (a, b)
  | _ :: _ :: _ :: _ => .error (.valueError ("too many values to unpack"))
  | _ => .error (.valueError ("not enough values to unpack"))

/-- `validate_model`'s batch loop, reduced to the part that is reachable:
each iteration first destructures the batch; only if every destructuring
succeeds does the loop finish and the metrics get computed (represented by
the number of processed batches). -/
def validateModelRun (batches : List (List String)) : Except PyError ℕ :=
  batches.foldl
    (fun acc b =>
      match acc with
      | .error e => .error e
      | .ok n =>
          match unpackPair b with
          | .error e => .error e
          | .ok _ => .ok (n + 1))
    (.ok 0)

/-! ## Shape lemmas for the preprocessing pipeline -/

theorem targetSampleLength_eq : targetSampleLength = 80000 := by
  norm_num [targetSampleLength, targetDuration, sampleRate]
  rfl

theorem padOrTrim_length (w : List ℚ) : (padOrTrim w).length = targetSampleLength := by
  unfold padOrTrim
  split
  · simp only [List.length_append, List.length_replicate]
    omega
  · split
    · simp only [List.length_take]
      omega
    · omega

theorem peakNormalize_length (w : List ℚ) : (peakNormalize w).length = w.length := by
  simp [peakNormalize]

theorem loadAudioFile_length (resample : List ℚ → List ℚ) (origSampleRate : ℕ)
    (chans : List (List ℚ)) :
    (loadAudioFile resample origSampleRate chans).length = targetSampleLength := by
  unfold loadAudioFile
  rw [peakNormalize_length, padOrTrim_length]

theorem stftFrames_length (w : List ℚ) : (stftFrames w).length = numFrames w.length := by
  simp [stftFrames]

theorem spectrogramT_shape (w : List ℚ) :
    (spectrogramT w).length = nFft / 2 + 1 ∧
    ∀ row ∈ spectrogramT w, row.length = numFrames w.length := by
  constructor
  · simp [spectrogramT]
  · intro row hrow
    simp only [spectrogramT, List.mem_map] at hrow
    obtain ⟨k, _, hk⟩ := hrow
    rw [← hk]
    simp [stftFrames_length]

theorem specTimeDim_spectrogramT (w : List ℚ) :
    specTimeDim (spectrogramT w) = numFrames w.length := by
  have hne : spectrogramT w ≠ [] := by
    intro hnil
    have hlen : (spectrogramT w).length = nFft / 2 + 1 := by simp [spectrogramT]
    rw [hnil, List.length_nil] at hlen
    omega
  obtain ⟨h, t, hcons⟩ := List.exists_cons_of_ne_nil hne
  have hmem : h ∈ spectrogramT w := by
    rw [hcons]
    exact List.mem_cons_self _ _
  have hlen := (spectrogramT_shape w).2 h hmem
  rw [specTimeDim, hcons]
  simp [hlen]

theorem extractFeatures_shape (w : List ℚ) :
    (extractFeatures w).length = nMels ∧
    ∀ row ∈ extractFeatures w, row.length = numFrames w.length := by
  constructor
  · simp [extractFeatures, amplitudeToDB, melScaleT]
  · intro row hrow
    simp only [extractFeatures, amplitudeToDB, melScaleT, List.mem_map] at hrow
    obtain ⟨r, ⟨m, _, hm⟩, hr⟩ := hrow
    subst hr
    rw [← hm]
    simp [specTimeDim_spectrogramT]

/-! ## Claim C1 -/

/-- C1: for every input waveform — any channel count, any original duration,
any resampler output — `load_audio_file` followed by `extract_features`
produces a mel spectrogram of one fixed `(frequency, time)` shape:
`n_mels = 128` frequency bins by `target_sample_length / hop_length + 1 = 157`
time frames, a count determined solely by the configured target duration,
sample rate and hop length, because the waveform is first zero-padded or
truncated to exactly `target_sample_length` samples. -/
theorem c1_preprocessing_fixed_shape (resample : List ℚ → List ℚ)
    (origSampleRate : ℕ) (chans : List (List ℚ)) :
    (extractFeatures (loadAudioFile resample origSampleRate chans)).length = nMels ∧
    (∀ row ∈ extractFeatures (loadAudioFile resample origSampleRate chans),
        row.length = numFrames targetSampleLength) ∧
    nMels = 128 ∧
    numFrames targetSampleLength = targetSampleLength / hopLength + 1 ∧
    numFrames targetSampleLength = 157 := by
  refine ⟨(extractFeatures_shape _).1, ?_, rfl, rfl, ?_⟩
  · intro row hrow
    have h := (extractFeatures_shape _).2 row hrow
    rw [h, loadAudioFile_length]
  · rw [numFrames, targetSampleLength_eq]
    decide

theorem c1_preprocessing_fixed_shape_witness :
    (extractFeatures (loadAudioFile (fun w => w) 4000 [[1, 0, 1]])).length = nMels ∧
    numFrames targetSampleLength = 157 :=
  ⟨(c1_preprocessing_fixed_shape (fun w => w) 4000 [[1, 0, 1]]).1,
   (c1_preprocessing_fixed_shape (fun w => w) 4000 [[1, 0, 1]]).2.2.2.2⟩

/-! ## Claim C2 -/

/-- C2 (code bug): the claimed `(batch, num_classes)` output shape holds for
the Conformer, but not for the AST.  With the repository's configuration
(`representation_size` left `None` by both `src/train.py` and
`src/evaluate.py`), `AudioSpectrogramTransformer.__init__` already raises
`AttributeError` reading `self.representation.out_features` from
`nn.Identity()`; and independently `PatchEmbed.forward` raises
`AttributeError` on any input smaller than `img_size` — including the
`(1, 1, 128, 157)` spectrogram batch this very pipeline produces — because
the dimension binding `B, C, F, T = x.shape` shadows the `F` module alias
that the pad branch then calls `F.pad` on. -/
theorem c2_model_output_shape_code_bug :
    astConstruct astTrainHyper = .error (.attributeError ("out_features")) ∧
    patchEmbedForward astTrainHyper 1 1 128 157 = .error (.attributeError ("pad")) ∧
    astCreateAndForward astTrainHyper 1 1 128 157
      = .error (.attributeError ("out_features")) ∧
    (∀ b t : ℕ, t ≠ 0 → conformerForward conformerTrainHyper b 1 128 t = .ok (b, 5)) := by
  refine ⟨rfl, rfl, rfl, ?_⟩
  intro b t ht
  have h1 : ¬ (b * 1 * 128 * t ≠ b * t * 128) := by
    push_neg
    ring
  rw [conformerForward, if_neg h1,
    if_neg (by decide : ¬ ((128 : ℕ) ≠ conformerTrainHyper.inputDim)), if_neg ht]
  rfl

theorem c2_model_output_shape_code_bug_witness :
    (2 : ℕ) ≠ 0 ∧ conformerForward conformerTrainHyper 3 1 128 2 = .ok (3, 5) :=
  ⟨by decide, c2_model_output_shape_code_bug.2.2.2 3 2 (by decide)⟩

/-! ## Claim C3 -/

theorem filterMap_getElem_range {α : Type} (xs : List α) :
    (List.range xs.length).filterMap (fun i => xs[i]?) = xs := by
  induction xs with
  | nil => simp
  | cons x xs ih =>
    rw [List.length_cons, List.range_succ_eq_map]
    simp only [List.filterMap_cons, List.getElem?_cons_zero, List.filterMap_map,
      Function.comp_def, List.getElem?_cons_succ]
    rw [ih]

theorem selectIdx_perm {α : Type} (xs : List α) (σ : List ℕ)
    (hσ : σ.Perm (List.range xs.length)) : (selectIdx xs σ).Perm xs := by
  have h := hσ.filterMap (fun i => xs[i]?)
  rw [filterMap_getElem_range] at h
  exact h

theorem trainTestSplit_cover {α : Type} (xs : List α) (σ : List ℕ) (nTest : ℕ)
    (hσ : σ.Perm (List.range xs.length)) :
    ((trainTestSplit xs σ nTest).2 ++ (trainTestSplit xs σ nTest).1).Perm xs := by
  have h : (trainTestSplit xs σ nTest).2 ++ (trainTestSplit xs σ nTest).1
      = selectIdx xs σ := by
    show selectIdx xs (σ.take nTest) ++ selectIdx xs (σ.drop nTest) = selectIdx xs σ
    rw [selectIdx, selectIdx, selectIdx, ← List.filterMap_append, List.take_append_drop]
  rw [h]
  exact selectIdx_perm xs σ hσ

/-- C3: after `process_dataset`'s two chained `train_test_split` calls — for
every RNG permutation drawn by either split, stratified or not — the train,
validation and test partitions together form a permutation of the processed
triples (no triple dropped, none duplicated), and, the processed filenames
being distinct, the three partitions are pairwise disjoint by filename. -/
theorem c3_split_disjoint_cover (triples : List Triple) (σ1 σ2 : List ℕ)
    (nTest nVal : ℕ)
    (hσ1 : σ1.Perm (List.range triples.length))
    (hσ2 : σ2.Perm (List.range (trainTestSplit triples σ1 nTest).1.length))
    (hnodup : (triples.map Triple.filename).Nodup) :
    ((processSplit triples σ1 σ2 nTest nVal).1
        ++ (processSplit triples σ1 σ2 nTest nVal).2.1
        ++ (processSplit triples σ1 σ2 nTest nVal).2.2).Perm triples ∧
    ((processSplit triples σ1 σ2 nTest nVal).1.map Triple.filename).Disjoint
      ((processSplit triples σ1 σ2 nTest nVal).2.1.map Triple.filename) ∧
    ((processSplit triples σ1 σ2 nTest nVal).1.map Triple.filename).Disjoint
      ((processSplit triples σ1 σ2 nTest nVal).2.2.map Triple.filename) ∧
    ((processSplit triples σ1 σ2 nTest nVal).2.1.map Triple.filename).Disjoint
      ((processSplit triples σ1 σ2 nTest nVal).2.2.map Triple.filename) := by
  have h1 : ((trainTestSplit triples σ1 nTest).2
      ++ (trainTestSplit triples σ1 nTest).1).Perm triples :=
    trainTestSplit_cover triples σ1 nTest hσ1
  have h2 : ((trainTestSplit (trainTestSplit triples σ1 nTest).1 σ2 nVal).2
      ++ (trainTestSplit (trainTestSplit triples σ1 nTest).1 σ2 nVal).1).Perm
        (trainTestSplit triples σ1 nTest).1 :=
    trainTestSplit_cover _ σ2 nVal hσ2
  have hcover : ((processSplit triples σ1 σ2 nTest nVal).1
      ++ (processSplit triples σ1 σ2 nTest nVal).2.1
      ++ (processSplit triples σ1 σ2 nTest nVal).2.2).Perm triples := by
    show (((trainTestSplit (trainTestSplit triples σ1 nTest).1 σ2 nVal).1
      ++ (trainTestSplit (trainTestSplit triples σ1 nTest).1 σ2 nVal).2)
      ++ (trainTestSplit triples σ1 nTest).2).Perm triples
    exact ((List.perm_append_comm.trans h2).append_right _).trans
      (List.perm_append_comm.trans h1)
  refine ⟨hcover, ?_⟩
  have hnd : (((processSplit triples σ1 σ2 nTest nVal).1
      ++ (processSplit triples σ1 σ2 nTest nVal).2.1
      ++ (processSplit triples σ1 σ2 nTest nVal).2.2).map Triple.filename).Nodup :=
    ((hcover.map Triple.filename).nodup_iff).mpr hnodup
  rw [List.map_append, List.map_append] at hnd
  obtain ⟨hdAB, hdC, hdABC⟩ := List.nodup_append.mp hnd
  obtain ⟨hdA, hdB, hAB⟩ := List.nodup_append.mp hdAB
  obtain ⟨hAC, hBC⟩ := List.disjoint_append_left.mp hdABC
  exact ⟨hAB, hAC, hBC⟩

theorem c3_split_disjoint_cover_witness :
    ([2, 0, 1] : List ℕ).Perm
      (List.range ([⟨[], [], "a"⟩, ⟨[], [], "b"⟩, ⟨[], [], "c"⟩] : List Triple).length) ∧
    ([1, 0] : List ℕ).Perm
      (List.range (trainTestSplit
        ([⟨[], [], "a"⟩, ⟨[], [], "b"⟩, ⟨[], [], "c"⟩] : List Triple) [2, 0, 1] 1).1.length) ∧
    (([⟨[], [], "a"⟩, ⟨[], [], "b"⟩, ⟨[], [], "c"⟩] : List Triple).map Triple.filename).Nodup ∧
    ((processSplit ([⟨[], [], "a"⟩, ⟨[], [], "b"⟩, ⟨[], [], "c"⟩] : List Triple)
          [2, 0, 1] [1, 0] 1 1).1
        ++ (processSplit ([⟨[], [], "a"⟩, ⟨[], [], "b"⟩, ⟨[], [], "c"⟩] : List Triple)
          [2, 0, 1] [1, 0] 1 1).2.1
        ++ (processSplit ([⟨[], [], "a"⟩, ⟨[], [], "b"⟩, ⟨[], [], "c"⟩] : List Triple)
          [2, 0, 1] [1, 0] 1 1).2.2).Perm
      ([⟨[], [], "a"⟩, ⟨[], [], "b"⟩, ⟨[], [], "c"⟩] : List Triple) :=
  ⟨by decide, by decide, by decide,
   (c3_split_disjoint_cover [⟨[], [], "a"⟩, ⟨[], [], "b"⟩, ⟨[], [], "c"⟩]
      [2, 0, 1] [1, 0] 1 1 (by decide) (by decide) (by decide)).1⟩

/-! ## Claim C4 -/

/-- C4 counterexample: as wired in `src/train.py` (line 183,
`HeartSoundDataset(train_features, train_labels)`), the training dataset is
constructed with `augment` left at its default `False` and `config` at
`None`, so for every RNG outcome — all four coin-flip combinations, shown at
an explicit stored feature and mask draw — the feature fetched during
training is exactly the stored feature; the masking transform would have
changed it (last conjunct), so augmentation is never applied during
training, contradicting the claim that it may be applied there. -/
theorem c4_training_augmentation_counterexample :
    getItemFeature false false none false false ⟨0, 1⟩ ⟨0, 1⟩ [[1, 1], [1, 1]]
      = [[1, 1], [1, 1]] ∧
    getItemFeature false false none true false ⟨0, 1⟩ ⟨0, 1⟩ [[1, 1], [1, 1]]
      = [[1, 1], [1, 1]] ∧
    getItemFeature false false none false true ⟨0, 1⟩ ⟨0, 1⟩ [[1, 1], [1, 1]]
      = [[1, 1], [1, 1]] ∧
    getItemFeature false false none true true ⟨0, 1⟩ ⟨0, 1⟩ [[1, 1], [1, 1]]
      = [[1, 1], [1, 1]] ∧
    freqMask 0 1 [[1, 1], [1, 1]] ≠ [[1, 1], [1, 1]] := by
  refine ⟨rfl, rfl, rfl, rfl, ?_⟩
  decide

/-- C4 amended: `HeartSoundDataset.__getitem__` applies the stochastic
masking augmentations only when the dataset was constructed with
`augment=True` and a truthy `config`; every dataset `src/train.py` builds
(training included) and the evaluation datasets leave `augment=False`, so for
every sample fetched — in training as wired, and in validation/evaluation —
the returned feature tensor is exactly the stored one.  When augmentation is
enabled, a successful coin flip does change the feature path (masks are
applied), which is what the unused capability amounts to. -/
theorem c4_augmentation_never_applied_as_wired (augment hasConfig : Bool)
    (coinFreq coinTime : Bool) (fm tm : MaskDraw) (feature : List (List ℚ))
    (h : augment = false ∨ hasConfig = false) :
    getItemFeature augment hasConfig none coinFreq coinTime fm tm feature = feature ∧
    getItemFeature true true none true false fm tm feature
      = freqMask fm.start fm.width feature ∧
    getItemFeature true true none false true fm tm feature
      = timeMask tm.start tm.width feature := by
  refine ⟨?_, ?_, ?_⟩
  · rcases h with h | h <;> simp [getItemFeature, h]
  · simp [getItemFeature]
  · simp [getItemFeature]

theorem c4_augmentation_never_applied_as_wired_witness :
    ((false : Bool) = false ∨ (false : Bool) = false) ∧
    getItemFeature false false none true true ⟨0, 1⟩ ⟨0, 2⟩ [[1, 2]] = [[1, 2]] :=
  ⟨Or.inl rfl,
   (c4_augmentation_never_applied_as_wired false false true true ⟨0, 1⟩ ⟨0, 2⟩
      [[1, 2]] (Or.inl rfl)).1⟩

/-! ## Claim C5 -/

theorem epochStep_best_le (s : TrainState) (f : ℚ) : s.best ≤ (epochStep s f).1.best := by
  unfold epochStep
  split
  · exact le_refl _
  · split
    · next h => exact le_of_lt h
    · exact le_refl _

theorem epochStep_stopped (s : TrainState) (f : ℚ) (h : s.stopped = true) :
    epochStep s f = (s, false) := by
  rw [epochStep, if_pos h]

theorem trainStateAfter_append (xs : List ℚ) (x : ℚ) :
    trainStateAfter (xs ++ [x]) = (epochStep (trainStateAfter xs) x).1 := by
  rw [trainStateAfter, trainStateAfter, List.foldl_append]
  rfl

theorem stateBefore_succ (f1s : List ℚ) (i : ℕ) (hi : i < f1s.length) :
    stateBefore f1s (i + 1) = (epochStep (stateBefore f1s i) (f1s.getD i 0)).1 := by
  have hx : f1s[i]? = some (f1s.getD i 0) := by
    rw [List.getElem?_eq_getElem hi, List.getD_eq_getElem?_getD,
      List.getElem?_eq_getElem hi]
    rfl
  rw [stateBefore, stateBefore, List.take_succ, hx]
  exact trainStateAfter_append _ _

theorem stateBefore_stable (f1s : List ℚ) (i : ℕ) (hi : ¬ i < f1s.length) :
    stateBefore f1s (i + 1) = stateBefore f1s i := by
  rw [stateBefore, stateBefore, List.take_of_length_le (le_of_not_lt hi),
    List.take_of_length_le (by omega)]

theorem stateBefore_stopped_mono (f1s : List ℚ) (i : ℕ)
    (h : (stateBefore f1s i).stopped = true) :
    (stateBefore f1s (i + 1)).stopped = true := by
  by_cases hi : i < f1s.length
  · rw [stateBefore_succ f1s i hi, epochStep_stopped _ _ h]
    exact h
  · rw [stateBefore_stable f1s i hi]
    exact h

theorem take_foldl_max_succ (f1s : List ℚ) (i : ℕ) (hi : i < f1s.length) :
    (f1s.take (i + 1)).foldl max 0 = max ((f1s.take i).foldl max 0) (f1s.getD i 0) := by
  have hx : f1s[i]? = some (f1s.getD i 0) := by
    rw [List.getElem?_eq_getElem hi, List.getD_eq_getElem?_getD,
      List.getElem?_eq_getElem hi]
    rfl
  rw [List.take_succ, hx]
  simp [List.foldl_append]

theorem best_eq_runningMax (f1s : List ℚ) : ∀ i, i ≤ f1s.length →
    (stateBefore f1s i).stopped = false →
    (stateBefore f1s i).best = (f1s.take i).foldl max 0 := by
  intro i
  induction i with
  | zero => intro _ _; rfl
  | succ i ih =>
    intro hle hstop
    have hi : i < f1s.length := Nat.lt_of_succ_le hle
    have hstopi : (stateBefore f1s i).stopped = false := by
      cases hb : (stateBefore f1s i).stopped
      · rfl
      · exfalso
        have h2 := stateBefore_stopped_mono f1s i hb
        rw [hstop] at h2
        exact Bool.noConfusion h2
    have hbest := ih (le_of_lt hi) hstopi
    rw [stateBefore_succ f1s i hi, take_foldl_max_succ f1s i hi, ← hbest]
    rw [epochStep, if_neg (by simp [hstopi])]
    by_cases hlt : (stateBefore f1s i).best < f1s.getD i 0
    · rw [if_pos hlt]
      exact (max_eq_right (le_of_lt hlt)).symm
    · rw [if_neg hlt]
      exact (max_eq_left (not_lt.mp hlt)).symm

theorem epochStep_diskInv (s : TrainState) (f : ℚ)
    (h : (s.disk = none ∧ s.best = 0) ∨ s.disk = some s.best) :
    ((epochStep s f).1.disk = none ∧ (epochStep s f).1.best = 0) ∨
      (epochStep s f).1.disk = some (epochStep s f).1.best := by
  unfold epochStep
  split
  · exact h
  · split
    · right
      rfl
    · exact h

theorem stateBefore_diskInv (f1s : List ℚ) : ∀ i,
    ((stateBefore f1s i).disk = none ∧ (stateBefore f1s i).best = 0) ∨
      (stateBefore f1s i).disk = some (stateBefore f1s i).best := by
  intro i
  induction i with
  | zero => exact Or.inl ⟨rfl, rfl⟩
  | succ i ih =>
    by_cases hi : i < f1s.length
    · rw [stateBefore_succ f1s i hi]
      exact epochStep_diskInv _ _ ih
    · rw [stateBefore_stable f1s i hi]
      exact ih

theorem stateBefore_best_mono (f1s : List ℚ) (i : ℕ) :
    (stateBefore f1s i).best ≤ (stateBefore f1s (i + 1)).best := by
  by_cases hi : i < f1s.length
  · rw [stateBefore_succ f1s i hi]
    exact epochStep_best_le _ _
  · rw [stateBefore_stable f1s i hi]

theorem savedAt_iff (f1s : List ℚ) (i : ℕ)
    (hstop : (stateBefore f1s i).stopped = false) :
    savedAt f1s i = true ↔ (stateBefore f1s i).best < f1s.getD i 0 := by
  rw [savedAt, epochStep, if_neg (by simp [hstop])]
  by_cases hlt : (stateBefore f1s i).best < f1s.getD i 0
  · rw [if_pos hlt]
    exact ⟨fun _ => hlt, fun _ => rfl⟩
  · rw [if_neg hlt]
    exact ⟨fun hc => Bool.noConfusion hc, fun hc => absurd hc hlt⟩

theorem stateBefore_append_le (ys : List ℚ) (x : ℚ) (i : ℕ) (hi : i ≤ ys.length) :
    stateBefore (ys ++ [x]) i = stateBefore ys i := by
  rw [stateBefore, stateBefore, List.take_append_of_le_length hi]

theorem getD_append_left (ys zs : List ℚ) (i : ℕ) (hi : i < ys.length) :
    (ys ++ zs).getD i 0 = ys.getD i 0 := by
  rw [List.getD_eq_getElem?_getD, List.getD_eq_getElem?_getD,
    List.getElem?_append_left hi]

theorem savedAt_append (ys : List ℚ) (x : ℚ) (i : ℕ) (hi : i < ys.length) :
    savedAt (ys ++ [x]) i = savedAt ys i := by
  rw [savedAt, savedAt, stateBefore_append_le ys x i (le_of_lt hi),
    getD_append_left ys [x] i hi]

theorem lastSavedVal_append (ys : List ℚ) (x : ℚ) :
    lastSavedVal (ys ++ [x]) =
      if savedAt (ys ++ [x]) ys.length then some x else lastSavedVal ys := by
  rw [lastSavedVal, lastSavedVal]
  simp only [List.length_append, List.length_singleton]
  rw [List.range_succ, List.foldl_append]
  have hfold : (List.range ys.length).foldl
      (fun acc i => if savedAt (ys ++ [x]) i then some ((ys ++ [x]).getD i 0) else acc) none
      = (List.range ys.length).foldl
      (fun acc i => if savedAt ys i then some (ys.getD i 0) else acc) none := by
    apply List.foldl_ext
    intro acc i hi2
    have hi3 : i < ys.length := List.mem_range.mp hi2
    rw [savedAt_append ys x i hi3, getD_append_left ys [x] i hi3]
  rw [hfold]
  have hx : (ys ++ [x]).getD ys.length 0 = x := by
    rw [List.getD_eq_getElem?_getD, List.getElem?_concat_length]
    rfl
  simp [hx]

theorem testCheckpoint_eq_lastSavedVal (f1s : List ℚ) :
    testCheckpoint f1s = lastSavedVal f1s := by
  induction f1s using List.reverseRecOn with
  | nil => rfl
  | append_singleton ys x ih =>
    rw [lastSavedVal_append]
    rw [testCheckpoint, trainStateAfter_append]
    have hsb : stateBefore (ys ++ [x]) ys.length = trainStateAfter ys := by
      rw [stateBefore, List.take_left]
    have hgd : (ys ++ [x]).getD ys.length 0 = x := by
      rw [List.getD_eq_getElem?_getD, List.getElem?_concat_length]
      rfl
    rw [savedAt, hsb, hgd, ← ih, testCheckpoint]
    rw [epochStep]
    split
    · simp
    · split
      · simp
      · simp

/-- C5: for every sequence of per-epoch validation F1 scores, (i) in each
executed epoch (the loop not yet stopped by early stopping) the checkpoint
file is written iff that epoch's validation F1 strictly exceeds the tracked
best, which equals the running maximum — `best_val_f1` starts at `0` and F1
scores lie in `[0, 1]`, so this is the best validation F1 of all previous
epochs; (ii) the tracked best is monotonically non-decreasing; (iii) whenever
a checkpoint exists on disk its validation F1 equals the tracked best, i.e.
the maximum seen so far; and (iv) the checkpoint loaded for the held-out test
evaluation is exactly the last-saved one. -/
theorem c5_best_checkpoint_policy (f1s : List ℚ) :
    (∀ i, i < f1s.length → (stateBefore f1s i).stopped = false →
        ((savedAt f1s i = true ↔ (stateBefore f1s i).best < f1s.getD i 0) ∧
          (stateBefore f1s i).best = (f1s.take i).foldl max 0)) ∧
    (∀ i, (stateBefore f1s i).best ≤ (stateBefore f1s (i + 1)).best) ∧
    (∀ i, ((stateBefore f1s i).disk = none ∧ (stateBefore f1s i).best = 0) ∨
        (stateBefore f1s i).disk = some (stateBefore f1s i).best) ∧
    testCheckpoint f1s = lastSavedVal f1s :=
  ⟨fun i hi hstop =>
      ⟨savedAt_iff f1s i hstop, best_eq_runningMax f1s i (le_of_lt hi) hstop⟩,
   fun i => stateBefore_best_mono f1s i,
   fun i => stateBefore_diskInv f1s i,
   testCheckpoint_eq_lastSavedVal f1s⟩

theorem c5_best_checkpoint_policy_witness :
    (1 < ([0, 1] : List ℚ).length ∧
      (stateBefore ([0, 1] : List ℚ) 1).stopped = false) ∧
    (savedAt ([0, 1] : List ℚ) 1 = true ↔
      (stateBefore ([0, 1] : List ℚ) 1).best < ([0, 1] : List ℚ).getD 1 0) :=
  ⟨⟨by decide, by decide⟩,
   ((c5_best_checkpoint_policy ([0, 1] : List ℚ)).1 1 (by decide) (by decide)).1⟩

/-! ## Claim C6 -/

theorem unflatten_flatten (w : List (List ℚ)) (c : ℕ)
    (hw : ∀ row ∈ w, row.length = c) :
    unflatten w.length c w.flatten = w := by
  induction w with
  | nil => rfl
  | cons r rs ih =>
    have hr : r.length = c := hw r (List.mem_cons_self _ _)
    have hrs : ∀ row ∈ rs, row.length = c := fun row h => hw row (List.mem_cons_of_mem _ h)
    rw [unflatten, List.length_cons, List.range_succ_eq_map, List.map_cons, List.map_map]
    have h0 : ((r :: rs).flatten.drop (0 * c)).take c = r := by
      rw [Nat.zero_mul, List.drop_zero, List.flatten_cons, ← hr, List.take_left]
    rw [h0]
    have hsucc : ∀ i : ℕ,
        (((r :: rs).flatten.drop ((i + 1) * c)).take c)
          = ((rs.flatten.drop (i * c)).take c) := by
      intro i
      rw [List.flatten_cons]
      have hix : (i + 1) * c = r.length + i * c := by
        rw [hr]
        ring
      rw [hix, List.drop_append]
    have hmap : (List.range rs.length).map
          ((fun i => ((r :: rs).flatten.drop (i * c)).take c) ∘ Nat.succ)
        = (List.range rs.length).map (fun i => (rs.flatten.drop (i * c)).take c) :=
      List.map_congr_left (fun i _ => hsucc i)
    rw [hmap]
    rw [show (List.range rs.length).map (fun i => (rs.flatten.drop (i * c)).take c)
        = unflatten rs.length c rs.flatten from rfl]
    rw [ih hrs]

theorem torchLoad_roundtrip (p : LinearParams)
    (hw : ∀ row ∈ p.weight, row.length = numColsOf p.weight) :
    torchLoadLinear (savedCheckpoint p) = some p := by
  have h1 : (savedCheckpoint p).lookup ("output.weight")
      = some ((p.weight.length, numColsOf p.weight), p.weight.flatten) := rfl
  have h2 : (savedCheckpoint p).lookup ("output.bias")
      = some ((p.bias.length, 1), p.bias) := rfl
  rw [torchLoadLinear, h1, h2]
  show some (LinearParams.mk
      (unflatten p.weight.length (numColsOf p.weight) p.weight.flatten) p.bias) = some p
  rw [unflatten_flatten p.weight (numColsOf p.weight) hw]

/-- C6: saving a model's parameters (`torch.save(model.state_dict(), path)`
in train.py) and reloading them with strict `load_state_dict` into a freshly
constructed model of the same architecture (as evaluate.py does) yields a
model whose inference output on any input is identical to the original's: in
general (first conjunct, any architecture, any fresh initialization), and
through the concretely modelled serialized checkpoint of the classifier head
(second and third conjuncts). -/
theorem c6_checkpoint_roundtrip :
    (∀ (P I O : Type) (arch : P → I → O) (trained init : P) (x : I),
        ((TorchModel.mk arch init).loadStateDict
            ((TorchModel.mk arch trained).stateDict)).run x
          = (TorchModel.mk arch trained).run x) ∧
    (∀ p : LinearParams, (∀ row ∈ p.weight, row.length = numColsOf p.weight) →
        torchLoadLinear (savedCheckpoint p) = some p) ∧
    (∀ (p init : LinearParams) (x : List ℚ),
        (∀ row ∈ p.weight, row.length = numColsOf p.weight) →
        ((TorchModel.mk linearForward init).loadStateDict
            ((torchLoadLinear (savedCheckpoint p)).getD init)).run x
          = (TorchModel.mk linearForward p).run x) := by
  refine ⟨fun P I O arch trained init x => rfl, torchLoad_roundtrip, ?_⟩
  intro p init x hw
  rw [torchLoad_roundtrip p hw]
  rfl

theorem c6_checkpoint_roundtrip_witness :
    (∀ row ∈ ([[1, 2], [3, 4]] : List (List ℚ)),
        row.length = numColsOf ([[1, 2], [3, 4]] : List (List ℚ))) ∧
    ((TorchModel.mk linearForward (⟨[[0, 0], [0, 0]], [0, 0]⟩ : LinearParams)).loadStateDict
        ((torchLoadLinear (savedCheckpoint ⟨[[1, 2], [3, 4]], [5, 6]⟩)).getD
          ⟨[[0, 0], [0, 0]], [0, 0]⟩)).run [1, 1]
      = (TorchModel.mk linearForward ⟨[[1, 2], [3, 4]], [5, 6]⟩).run [1, 1] :=
  ⟨by decide,
   c6_checkpoint_roundtrip.2.2 ⟨[[1, 2], [3, 4]], [5, 6]⟩ ⟨[[0, 0], [0, 0]], [0, 0]⟩
     [1, 1] (by decide)⟩

/-! ## Claim C7 -/

/-- C7 counterexample: at the logit `1/5`, evaluate.py / validate.py
(`sigmoid` then threshold at `0.5`) predict positive, while train.py's metric
computation (`outputs > 0.5` on the raw logit, no sigmoid) predicts negative:
the two prediction rules are not the same rule, refuting the claim that the
sigmoid-at-0.5 rule is the one used both for training/validation metrics and
at evaluation time. -/
theorem c7_prediction_rule_counterexample :
    evalPredict (1 / 5 : ℝ) = true ∧ trainPredict (1 / 5 : ℝ) = false := by
  constructor
  · rw [evalPredict, threshPredAt, decide_eq_true_eq, sigmoid]
    have hexp : Real.exp (-(1 / 5 : ℝ)) < 1 := by
      have h := Real.exp_lt_exp.mpr (show (-(1 / 5 : ℝ)) < 0 by norm_num)
      rwa [Real.exp_zero] at h
    have hpos : (0 : ℝ) < 1 + Real.exp (-(1 / 5 : ℝ)) := by positivity
    rw [lt_div_iff₀ hpos]
    linarith [hexp]
  · rw [trainPredict, threshPredAt]
    simp only [decide_eq_false_iff_not]
    norm_num

/-- C7 amended: thresholding at 0.5 is monotone in the underlying
probability (and hence in the logit, sigmoid being applied first);
evaluate.py and validate.py use the sigmoid-then-threshold rule; train.py's
rule thresholds the raw logit at 0.5 — a different, though also monotone,
rule. -/
theorem c7_threshold_monotone :
    (∀ p1 p2 : ℝ, p1 ≤ p2 →
        threshPredAt (1 / 2 : ℝ) p1 ≤ threshPredAt (1 / 2 : ℝ) p2) ∧
    (∀ l : ℝ, evalPredict l = threshPredAt (1 / 2 : ℝ) (sigmoid l)) ∧
    (∀ l1 l2 : ℝ, sigmoid l1 ≤ sigmoid l2 → evalPredict l1 ≤ evalPredict l2) ∧
    (∀ l1 l2 : ℝ, l1 ≤ l2 → trainPredict l1 ≤ trainPredict l2) := by
  have hmono : ∀ p1 p2 : ℝ, p1 ≤ p2 →
      threshPredAt (1 / 2 : ℝ) p1 ≤ threshPredAt (1 / 2 : ℝ) p2 := by
    intro p1 p2 hle
    rw [threshPredAt, threshPredAt]
    by_cases h1 : (1 / 2 : ℝ) < p1
    · have h2 : (1 / 2 : ℝ) < p2 := lt_of_lt_of_le h1 hle
      rw [decide_eq_true h1, decide_eq_true h2]
    · rw [decide_eq_false h1]
      exact Bool.false_le _
  exact ⟨hmono, fun l => rfl, fun l1 l2 h => hmono _ _ h, fun l1 l2 h => hmono _ _ h⟩

theorem c7_threshold_monotone_witness :
    ((1 : ℝ) / 4 ≤ 3 / 4) ∧
    threshPredAt (1 / 2 : ℝ) ((1 : ℝ) / 4) ≤ threshPredAt (1 / 2 : ℝ) ((3 : ℝ) / 4) :=
  ⟨by norm_num, c7_threshold_monotone.1 (1 / 4) (3 / 4) (by norm_num)⟩

/-! ## Claim C8 -/

theorem processRecording_missing (resample : List ℚ → List ℚ) (label : List ℚ)
    (s : ProcState) (fn : String) :
    processRecording resample label s ⟨fn, .missing⟩
      = { s with failedCount := s.failedCount + 1 } := rfl

theorem processRecording_loadFailure (resample : List ℚ → List ℚ) (label : List ℚ)
    (s : ProcState) (fn : String) :
    processRecording resample label s ⟨fn, .loadFailure⟩
      = { s with failedCount := s.failedCount + 1 } := rfl

theorem processRecording_loaded (resample : List ℚ → List ℚ) (label : List ℚ)
    (s : ProcState) (fn : String) (chans : List (List ℚ)) (sr : ℕ) :
    processRecording resample label s ⟨fn, .loaded chans sr⟩
      = { s with
          features := s.features ++ [extractFeatures (loadAudioFile resample sr chans)],
          labels := s.labels ++ [label],
          filenames := s.filenames ++ [fn],
          processedCount := s.processedCount + 1 } := rfl

theorem isLoadedRec_missing (fn : String) : isLoadedRec ⟨fn, .missing⟩ = false := rfl

theorem isLoadedRec_loadFailure (fn : String) : isLoadedRec ⟨fn, .loadFailure⟩ = false := rfl

theorem isLoadedRec_loaded (fn : String) (chans : List (List ℚ)) (sr : ℕ) :
    isLoadedRec ⟨fn, .loaded chans sr⟩ = true := rfl

theorem loadedFeature_missing (resample : List ℚ → List ℚ) (fn : String) :
    loadedFeature resample ⟨fn, .missing⟩ = none := rfl

theorem loadedFeature_loadFailure (resample : List ℚ → List ℚ) (fn : String) :
    loadedFeature resample ⟨fn, .loadFailure⟩ = none := rfl

theorem loadedFeature_loaded (resample : List ℚ → List ℚ) (fn : String)
    (chans : List (List ℚ)) (sr : ℕ) :
    loadedFeature resample ⟨fn, .loaded chans sr⟩
      = some (extractFeatures (loadAudioFile resample sr chans)) := rfl

theorem processRecs_spec (resample : List ℚ → List ℚ) (label : List ℚ)
    (recs : List RecordingRef) : ∀ s : ProcState,
    (recs.foldl (processRecording resample label) s).features
        = s.features ++ recs.filterMap (loadedFeature resample) ∧
    (recs.foldl (processRecording resample label) s).filenames
        = s.filenames ++ (recs.filter isLoadedRec).map RecordingRef.filename ∧
    (recs.foldl (processRecording resample label) s).processedCount
        = s.processedCount + (recs.filter isLoadedRec).length ∧
    (recs.foldl (processRecording resample label) s).failedCount
        = s.failedCount + (recs.filter (fun r => ! isLoadedRec r)).length := by
  induction recs with
  | nil =>
    intro s
    refine ⟨?_, ?_, ?_, ?_⟩ <;> simp
  | cons r rs ih =>
    intro s
    rw [List.foldl_cons]
    rcases r with ⟨fn, outcome⟩
    cases outcome with
    | missing =>
      rw [processRecording_missing]
      obtain ⟨ih1, ih2, ih3, ih4⟩ := ih { s with failedCount := s.failedCount + 1 }
      refine ⟨?_, ?_, ?_, ?_⟩
      · rw [ih1]
        simp [List.filterMap_cons, loadedFeature_missing]
      · rw [ih2]
        simp [List.filter_cons, isLoadedRec_missing]
      · rw [ih3]
        simp [List.filter_cons, isLoadedRec_missing]
      · rw [ih4]
        simp [List.filter_cons, isLoadedRec_missing]
        omega
    | loadFailure =>
      rw [processRecording_loadFailure]
      obtain ⟨ih1, ih2, ih3, ih4⟩ := ih { s with failedCount := s.failedCount + 1 }
      refine ⟨?_, ?_, ?_, ?_⟩
      · rw [ih1]
        simp [List.filterMap_cons, loadedFeature_loadFailure]
      · rw [ih2]
        simp [List.filter_cons, isLoadedRec_loadFailure]
      · rw [ih3]
        simp [List.filter_cons, isLoadedRec_loadFailure]
      · rw [ih4]
        simp [List.filter_cons, isLoadedRec_loadFailure]
        omega
    | loaded chans sr =>
      rw [processRecording_loaded]
      obtain ⟨ih1, ih2, ih3, ih4⟩ := ih
        { s with
          features := s.features ++ [extractFeatures (loadAudioFile resample sr chans)],
          labels := s.labels ++ [label],
          filenames := s.filenames ++ [fn],
          processedCount := s.processedCount + 1 }
      refine ⟨?_, ?_, ?_, ?_⟩
      · rw [ih1]
        simp [List.filterMap_cons, loadedFeature_loaded, List.append_assoc]
      · rw [ih2]
        simp [List.filter_cons, isLoadedRec_loaded, List.append_assoc]
      · rw [ih3]
        simp [List.filter_cons, isLoadedRec_loaded]
        omega
      · rw [ih4]
        simp [List.filter_cons, isLoadedRec_loaded]

theorem allRecordings_cons (lab : List ℚ) (recs : List RecordingRef)
    (rest : List (List ℚ × List RecordingRef)) :
    allRecordings ((lab, recs) :: rest) = recs ++ allRecordings rest := by
  simp [allRecordings]

theorem processRowsFrom_spec (resample : List ℚ → List ℚ)
    (rows : List (List ℚ × List RecordingRef)) : ∀ s : ProcState,
    (rows.foldl (processRow resample) s).features
        = s.features ++ (allRecordings rows).filterMap (loadedFeature resample) ∧
    (rows.foldl (processRow resample) s).filenames
        = s.filenames ++ ((allRecordings rows).filter isLoadedRec).map RecordingRef.filename ∧
    (rows.foldl (processRow resample) s).processedCount
        = s.processedCount + ((allRecordings rows).filter isLoadedRec).length ∧
    (rows.foldl (processRow resample) s).failedCount
        = s.failedCount + ((allRecordings rows).filter (fun r => ! isLoadedRec r)).length := by
  induction rows with
  | nil =>
    intro s
    refine ⟨?_, ?_, ?_, ?_⟩ <;> simp [allRecordings]
  | cons row rest ih =>
    intro s
    rw [List.foldl_cons]
    rcases row with ⟨lab, recs⟩
    obtain ⟨ih1, ih2, ih3, ih4⟩ := ih (processRow resample s (lab, recs))
    obtain ⟨hr1, hr2, hr3, hr4⟩ := processRecs_spec resample lab recs s
    rw [allRecordings_cons]
    have hstep : processRow resample s (lab, recs)
        = recs.foldl (processRecording resample lab) s := rfl
    refine ⟨?_, ?_, ?_, ?_⟩
    · rw [ih1, hstep, hr1, List.filterMap_append, List.append_assoc]
    · rw [ih2, hstep, hr2, List.filter_append, List.map_append, List.append_assoc]
    · rw [ih3, hstep, hr3, List.filter_append, List.length_append]
      omega
    · rw [ih4, hstep, hr4, List.filter_append, List.length_append]
      omega

/-- C8: for every mix of missing, unreadable and loadable audio files, the
preprocessing loop logs and excludes each failure, counts it, and continues
with the remaining files: `process_dataset` completes (the final `np.stack`
succeeds as soon as at least one file loaded), its triples are exactly the
successfully loaded files in order — files positioned after a failure
included — and the failure counter counts exactly the missing/unreadable
files. -/
theorem c8_unreadable_files_skipped (resample : List ℚ → List ℚ)
    (rows : List (List ℚ × List RecordingRef))
    (h : ∃ r ∈ allRecordings rows, isLoadedRec r = true) :
    ∃ s, processDatasetRun resample rows = .ok s ∧
      s.features = (allRecordings rows).filterMap (loadedFeature resample) ∧
      s.filenames = ((allRecordings rows).filter isLoadedRec).map RecordingRef.filename ∧
      s.processedCount = ((allRecordings rows).filter isLoadedRec).length ∧
      s.failedCount = ((allRecordings rows).filter (fun r => ! isLoadedRec r)).length := by
  obtain ⟨hs1, hs2, hs3, hs4⟩ := processRowsFrom_spec resample rows initProcState
  have hs1f : (processAllRows resample rows).features
      = (allRecordings rows).filterMap (loadedFeature resample) := by
    rw [processAllRows, hs1]
    rfl
  obtain ⟨r, hrmem, hld⟩ := h
  have hfeat : ∃ v, loadedFeature resample r = some v := by
    rcases r with ⟨fn, o⟩
    cases o with
    | missing => exact absurd hld (by rw [isLoadedRec_missing]; exact Bool.noConfusion)
    | loadFailure => exact absurd hld (by rw [isLoadedRec_loadFailure]; exact Bool.noConfusion)
    | loaded chans sr => exact ⟨_, rfl⟩
  obtain ⟨v, hv⟩ := hfeat
  have hmem2 : v ∈ (allRecordings rows).filterMap (loadedFeature resample) :=
    List.mem_filterMap.mpr ⟨r, hrmem, hv⟩
  have hne : (processAllRows resample rows).features ≠ [] := by
    rw [hs1f]
    intro hnil
    rw [hnil] at hmem2
    exact List.not_mem_nil _ hmem2
  refine ⟨processAllRows resample rows, ?_, hs1f, ?_, ?_, ?_⟩
  · rw [processDatasetRun, stackFeatures,
      if_neg (by simp only [List.isEmpty_eq_true]; exact hne)]
  · rw [processAllRows, hs2]
    rfl
  · rw [processAllRows, hs3]
    simp [initProcState]
  · rw [processAllRows, hs4]
    simp [initProcState]

theorem c8_unreadable_files_skipped_witness :
    (∃ r ∈ allRecordings [([1], [⟨"a", .missing⟩, ⟨"b", .loaded [[1]] 4000⟩])],
        isLoadedRec r = true) ∧
    (∃ s, processDatasetRun (fun w => w)
          [([1], [⟨"a", .missing⟩, ⟨"b", .loaded [[1]] 4000⟩])] = .ok s ∧
      s.features = (allRecordings [([1], [⟨"a", .missing⟩, ⟨"b", .loaded [[1]] 4000⟩])]).filterMap
          (loadedFeature (fun w => w)) ∧
      s.filenames = ((allRecordings [([1], [⟨"a", .missing⟩, ⟨"b", .loaded [[1]] 4000⟩])]).filter
          isLoadedRec).map RecordingRef.filename ∧
      s.processedCount = ((allRecordings [([1], [⟨"a", .missing⟩, ⟨"b", .loaded [[1]] 4000⟩])]).filter
          isLoadedRec).length ∧
      s.failedCount = ((allRecordings [([1], [⟨"a", .missing⟩, ⟨"b", .loaded [[1]] 4000⟩])]).filter
          (fun r => ! isLoadedRec r)).length) :=
  ⟨⟨⟨"b", .loaded [[1]] 4000⟩, by simp [allRecordings], rfl⟩,
   c8_unreadable_files_skipped (fun w => w)
     [([1], [⟨"a", .missing⟩, ⟨"b", .loaded [[1]] 4000⟩])]
     ⟨⟨"b", .loaded [[1]] 4000⟩, by simp [allRecordings], rfl⟩⟩

/-! ## Claim C9 -/

/-- C9: when one architecture's checkpoint file is absent, `evaluate.py`'s
main loop reports it (appending it to the warned-and-skipped list) and
`continue`s without ever calling `torch.load` on the missing path; the other
architecture is still evaluated and the whole comparison run completes
normally (returns `.ok`, reaching the final log line) instead of crashing —
for either missing checkpoint, and with both present both are evaluated and
the cross-model comparison plot is additionally produced. -/
theorem c9_missing_checkpoint_skipped :
    evalMain (fun m => match m with
      | ModelName.conformer => false
      | ModelName.ast => true)
      = .ok { evaluated := [ModelName.ast],
              skippedReported := [ModelName.conformer], compareRan := false } ∧
    evalMain (fun m => match m with
      | ModelName.conformer => true
      | ModelName.ast => false)
      = .ok { evaluated := [ModelName.conformer],
              skippedReported := [ModelName.ast], compareRan := false } ∧
    evalMain (fun _ => true)
      = .ok { evaluated := [ModelName.conformer, ModelName.ast],
              skippedReported := [], compareRan := true } :=
  ⟨rfl, rfl, rfl⟩

/-! ## Claim C10 -/

theorem validateModelRun_error_absorb (bs : List (List String)) (e : PyError) :
    ∀ acc : Except PyError ℕ, acc = .error e →
    bs.foldl
      (fun acc b =>
        match acc with
        | .error e2 => .error e2
        | .ok n =>
            match unpackPair b with
            | .error e2 => .error e2
            | .ok _ => .ok (n + 1)) acc = .error e := by
  induction bs with
  | nil =>
    intro acc hacc
    exact hacc
  | cons b rest ih =>
    intro acc hacc
    rw [List.foldl_cons, hacc]
    exact ih _ rfl

/-- C10: for every `HeartSoundDataset` constructed with filenames — as
`validate.py`'s `main` builds the test dataset — every sample dict has the
three keys `feature`, `label`, `filename` (whatever the augmentation flags,
RNG draws, feature, label and filename values are); `default_collate`
preserves the keys, and `validate_model`'s destructuring `inputs, labels =
batch` is a two-target tuple unpacking of that three-key dict, which raises
`ValueError` on the very first batch: `validate_model` errors without ever
computing its metrics, and in particular never reads the feature tensors
through this destructuring (the error depends only on the key count). -/
theorem c10_validate_model_unpack_fails (augment hasConfig : Bool)
    (transform : Option (List (List ℚ) → List (List ℚ)))
    (coinFreq coinTime : Bool) (fm tm : MaskDraw)
    (feature : List (List ℚ)) (label : List ℚ) (fn : String)
    (rest : List (List String)) :
    collateKeys (getItemSample augment hasConfig transform coinFreq coinTime fm tm
        feature label (some fn)) = ["feature", "label", "filename"] ∧
    validateModelRun
      (collateKeys (getItemSample augment hasConfig transform coinFreq coinTime fm tm
          feature label (some fn)) :: rest)
      = .error (.valueError ("too many values to unpack")) := by
  have hkeys : collateKeys (getItemSample augment hasConfig transform coinFreq coinTime
      fm tm feature label (some fn)) = ["feature", "label", "filename"] := by
    simp [collateKeys, getItemSample]
  refine ⟨hkeys, ?_⟩
  rw [validateModelRun, List.foldl_cons, hkeys]
  exact validateModelRun_error_absorb rest _ _ rfl

theorem c10_validate_model_unpack_fails_witness :
    collateKeys (getItemSample false true none false false ⟨0, 1⟩ ⟨0, 1⟩
        [[1]] [1, 0] (some ("r1.wav"))) = ["feature", "label", "filename"] ∧
    validateModelRun
      (collateKeys (getItemSample false true none false false ⟨0, 1⟩ ⟨0, 1⟩
          [[1]] [1, 0] (some ("r1.wav"))) :: [])
      = .error (.valueError ("too many values to unpack")) :=
  c10_validate_model_unpack_fails false true none false false ⟨0, 1⟩ ⟨0, 1⟩
    [[1]] [1, 0] ("r1.wav") []
